import Mathlib

/-!
# Verification of the AI Meal & Recipe Planner form pipeline

Shallow embedding of `src/index.tsx` (the single `App` React component):
form state, the submit handler's synchronous validation and asynchronous
pipeline (file read → prompt composition → generation call → `JSON.parse`
→ state update), and the result-rendering logic.

JavaScript runtime values that flow through `JSON.parse` and property
access are modelled by `JSVal`; the parser below follows the JSON grammar
accepted by `JSON.parse` (whitespace, `null` / booleans, numbers, strings
with escapes, arrays, objects with last-duplicate-key-wins semantics).
Number literals are kept as their lexemes: no claim compares numeric
values, and this avoids attributing IEEE-754 semantics to the model.
-/

namespace MealPlanner

/-- A JavaScript runtime value, as produced by `JSON.parse` and consumed by
property accesses in `handleSubmit` and the render code.  `undefined` is
included because `parsedPlan.meals` can evaluate to it. -/
inductive JSVal where
  | null
  | undefined
  | bool (b : Bool)
  | num (lexeme : String)
  | str (s : String)
  | arr (elems : List JSVal)
  | obj (fields : List (String × JSVal))

/-- JSON insignificant whitespace (space, tab, line feed, carriage return). -/
def skipWs : List Char → List Char
  | [] => []
  | c :: cs =>
    if c = ' ' ∨ c = '\t' ∨ c = '\n' ∨ c = '\r' then skipWs cs else c :: cs

/-- Value of a hexadecimal digit, for `\uXXXX` escapes. -/
def hexDigitVal (c : Char) : Option Nat :=
  if '0' ≤ c ∧ c ≤ '9' then some (c.toNat - '0'.toNat)
  else if 'a' ≤ c ∧ c ≤ 'f' then some (c.toNat - 'a'.toNat + 10)
  else if 'A' ≤ c ∧ c ≤ 'F' then some (c.toNat - 'A'.toNat + 10)
  else none

/-- Body of a JSON string literal (after the opening quote), with escape
sequences; returns the decoded characters and the input after the closing
quote.  Fuelled: every call consumes at least one input character. -/
def parseStringBody : Nat → List Char → Option (List Char × List Char)
  | 0, _ => none
  | _ + 1, [] => none
  | fuel + 1, c :: cs =>
    if c = '"' then some ([], cs)
    else if c = '\\' then
      match cs with
      | [] => none
      | e :: cs2 =>
        let esc : Option (Char × List Char) :=
          if e = '"' then some ('"', cs2)
          else if e = '\\' then some ('\\', cs2)
          else if e = '/' then some ('/', cs2)
          else if e = 'b' then some (Char.ofNat 8, cs2)
          else if e = 'f' then some (Char.ofNat 12, cs2)
          else if e = 'n' then some ('\n', cs2)
          else if e = 'r' then some ('\r', cs2)
          else if e = 't' then some ('\t', cs2)
          else if e = 'u' then
            match cs2 with
            | h1 :: h2 :: h3 :: h4 :: cs3 =>
              match hexDigitVal h1, hexDigitVal h2, hexDigitVal h3, hexDigitVal h4 with
              | some a, some b, some c3, some d =>
                some (Char.ofNat (((a * 16 + b) * 16 + c3) * 16 + d), cs3)
              | _, _, _, _ => none
            | _ => none
          else none
        match esc with
        | none => none
        | some (ch, rest) =>
          match parseStringBody fuel rest with
          | some (s, r) => some (ch :: s, r)
          | none => none
    else if c.toNat < 32 then none
    else
      match parseStringBody fuel cs with
      | some (s, r) => some (c :: s, r)
      | none => none

/-- Optional exponent part of a JSON number literal. -/
def parseExpPart (acc : List Char) (cs : List Char) : Option (List Char × List Char) :=
  match cs with
  | e :: rest =>
    if e = 'e' ∨ e = 'E' then
      let sgnRest : List Char × List Char :=
        match rest with
        | '+' :: r => (['+'], r)
        | '-' :: r => (['-'], r)
        | _ => ([], rest)
      let ds := sgnRest.2.takeWhile Char.isDigit
      if ds.isEmpty then none
      else some (acc ++ [e] ++ sgnRest.1 ++ ds, sgnRest.2.dropWhile Char.isDigit)
    else some (acc, cs)
  | [] => some (acc, [])

/-- Optional fraction part of a JSON number literal, then the exponent. -/
def parseFracPart (acc : List Char) (cs : List Char) : Option (List Char × List Char) :=
  match cs with
  | '.' :: rest =>
    let ds := rest.takeWhile Char.isDigit
    if ds.isEmpty then none
    else parseExpPart (acc ++ ['.'] ++ ds) (rest.dropWhile Char.isDigit)
  | _ => parseExpPart acc cs

/-- A JSON number literal, kept as its lexeme. -/
def parseNumLex (cs : List Char) : Option (List Char × List Char) :=
  let signRest : List Char × List Char :=
    match cs with
    | '-' :: rest => (['-'], rest)
    | _ => ([], cs)
  match signRest.2 with
  | [] => none
  | d :: rest =>
    if d = '0' then parseFracPart (signRest.1 ++ ['0']) rest
    else if d.isDigit then
      parseFracPart (signRest.1 ++ [d] ++ rest.takeWhile Char.isDigit)
        (rest.dropWhile Char.isDigit)
    else none

/-- Assigning a key on a JavaScript object: an existing key keeps its
position and gets the new value, a new key is appended.  This is both the
object-literal spread update in `handleMealTimeChange` and the duplicate-key
behaviour of `JSON.parse`. -/
def setField (fields : List (String × JSVal)) (k : String) (v : JSVal) :
    List (String × JSVal) :=
  if fields.any (fun p => p.1 == k) then
    fields.map (fun p => if p.1 == k then (k, v) else p)
  else fields ++ [(k, v)]

mutual

/-- A JSON value with leading whitespace, returning the remaining input. -/
def parseVal : Nat → List Char → Option (JSVal × List Char)
  | 0, _ => none
  | fuel + 1, cs0 =>
    match skipWs cs0 with
    | [] => none
    | 'n' :: 'u' :: 'l' :: 'l' :: rest => some (.null, rest)
    | 't' :: 'r' :: 'u' :: 'e' :: rest => some (.bool true, rest)
    | 'f' :: 'a' :: 'l' :: 's' :: 'e' :: rest => some (.bool false, rest)
    | '"' :: rest =>
      match parseStringBody (rest.length + 1) rest with
      | some (s, r) => some (.str (String.mk s), r)
      | none => none
    | '[' :: rest =>
      match skipWs rest with
      | ']' :: r => some (.arr [], r)
      | cs1 =>
        match parseVal fuel cs1 with
        | some (v, r) => parseArrTail fuel r [v]
        | none => none
    | '{' :: rest =>
      match skipWs rest with
      | '}' :: r => some (.obj [], r)
      | cs1 => parseMember fuel cs1 []
    | cs =>
      match parseNumLex cs with
      | some (lex, r) => some (.num (String.mk lex), r)
      | none => none

/-- Array elements after the first: `, value`* then `]`. -/
def parseArrTail : Nat → List Char → List JSVal → Option (JSVal × List Char)
  | 0, _, _ => none
  | fuel + 1, cs, acc =>
    match skipWs cs with
    | ']' :: r => some (.arr acc, r)
    | ',' :: r =>
      match parseVal fuel r with
      | some (v, r2) => parseArrTail fuel r2 (acc ++ [v])
      | none => none
    | _ => none

/-- One object member: `"key" : value`, then the tail of the object. -/
def parseMember : Nat → List Char → List (String × JSVal) →
    Option (JSVal × List Char)
  | 0, _, _ => none
  | fuel + 1, cs, acc =>
    match skipWs cs with
    | '"' :: rest =>
      match parseStringBody (rest.length + 1) rest with
      | some (k, r) =>
        match skipWs r with
        | ':' :: r2 =>
          match parseVal fuel r2 with
          | some (v, r3) => parseObjTail fuel r3 (setField acc (String.mk k) v)
          | none => none
        | _ => none
      | none => none
    | _ => none

/-- Object members after the first: `, member`* then `\x7d`. -/
def parseObjTail : Nat → List Char → List (String × JSVal) →
    Option (JSVal × List Char)
  | 0, _, _ => none
  | fuel + 1, cs, acc =>
    match skipWs cs with
    | '}' :: r => some (.obj acc, r)
    | ',' :: r => parseMember fuel r acc
    | _ => none

end

/-- `JSON.parse`: parse one value and require only whitespace to remain.
The fuel is sufficient because every recursive call consumes at least one
input character. -/
def jsonParse (s : String) : Option JSVal :=
  match parseVal (2 * s.length + 8) s.data with
  | some (v, rest) => if (skipWs rest).isEmpty then some v else none
  | none => none

/-- JavaScript property access `v.k`.  It throws (`none`) on `null` and
`undefined`; on an object it yields the field's value or `undefined`; on
any other value (primitives, arrays) the properties used here do not exist
and the access yields `undefined`. -/
def memberAccess (v : JSVal) (k : String) : Option JSVal :=
  match v with
  | .null => none
  | .undefined => none
  | .obj fields => some (((fields.lookup k).getD .undefined))
  | _ => some .undefined

/-- Whether a JavaScript number literal denotes zero: its mantissa digits
are all `0` (the exponent cannot make a nonzero mantissa zero). -/
def jsNumIsZero (lexeme : String) : Bool :=
  ((lexeme.data.takeWhile (fun c => ¬ (c = 'e' ∨ c = 'E'))).filter Char.isDigit).all
    (fun c => c = '0')

/-- JavaScript truthiness, as used by the conditional-rendering guards
(`mealPlan && …`, `error && …`, `mealData.shoppingList && …`). -/
def isTruthy : JSVal → Bool
  | .null => false
  | .undefined => false
  | .bool b => b
  | .num lexeme => !jsNumIsZero lexeme
  | .str s => s ≠ ""
  | .arr _ => true
  | .obj _ => true

/-! ## Form state (the `useState` fields of `App`) -/

/-- The uploaded `File` handle; only its presence and (in rendering) its
name are used by the component — the contents arrive via `FileReader`. -/
structure FileHandle where
  name : String
deriving DecidableEq

/-- The five meal-time checkbox names, in source order (`mealTimeOptions`). -/
def mealTimeOptions : List String := ["breakfast", "brunch", "lunch", "snack", "dinner"]

/-- The diet dropdown options (`dietOptions`). -/
def dietOptions : List String :=
  ["", "Vegetarian", "Keto", "Non-Vegetarian", "Vegan", "Mediterranean"]

/-- The user-type dropdown options (`userTypeOptions`). -/
def userTypeOptions : List String :=
  ["", "Bachelor", "Housewife", "Working Professional", "Student", "Kid"]

/-- The component state.  `numPeople` is a JavaScript number; the component
only ever interpolates it into the prompt template, so it is modelled by
its string rendering (`"1"`, `"0"`, `"-2"`, `"NaN"`, …).  `mealPlan` is the
raw runtime value stored by `setMealPlan` (typed `Meal[] | null`, but at
runtime it receives whatever `parsedPlan.meals` evaluates to). -/
structure AppState where
  file : Option FileHandle
  diet : String
  userType : String
  numPeople : String
  selectedMeals : List (String × Bool)
  pantryOption : String
  mealPlan : JSVal
  loading : Bool
  error : Option String

/-- The initial `selectedMeals` record (all five checkboxes unchecked). -/
def initialSelectedMeals : List (String × Bool) :=
  [("breakfast", false), ("brunch", false), ("lunch", false),
   ("snack", false), ("dinner", false)]

/-- The state on page load. -/
def initialState : AppState :=
  { file := none, diet := "", userType := "", numPeople := "1",
    selectedMeals := initialSelectedMeals, pantryOption := "pantryOnly",
    mealPlan := .null, loading := false, error := none }

/-- Object-spread update `{...prev, [name]: checked}` on a boolean record:
an existing key keeps its position, a new key is appended. -/
def recordSet (r : List (String × Bool)) (k : String) (v : Bool) :
    List (String × Bool) :=
  if r.any (fun p => p.1 == k) then
    r.map (fun p => if p.1 == k then (k, v) else p)
  else r ++ [(k, v)]

/-- `handleMealTimeChange`: toggle the checkbox named `name` to `checked`. -/
def handleMealTimeChange (s : AppState) (name : String) (checked : Bool) : AppState :=
  { s with selectedMeals := recordSet s.selectedMeals name checked }

/-- A sequence of checkbox toggle events applied to a meal record. -/
def applyMealToggles (events : List (String × Bool))
    (r : List (String × Bool)) : List (String × Bool) :=
  events.foldl (fun acc e => recordSet acc e.1 e.2) r

/-- `Object.keys` of the record. -/
def objectKeys (r : List (String × Bool)) : List String := r.map Prod.fst

/-- Indexing `selectedMeals[meal]`; a missing key is `undefined`, falsy. -/
def lookupBool (r : List (String × Bool)) (k : String) : Bool :=
  (r.lookup k).getD false

/-- `atLeastOneMealSelected = Object.values(selectedMeals).some(v => v)`. -/
def atLeastOneMealSelected (r : List (String × Bool)) : Bool :=
  (r.map Prod.snd).any id

/-- `Object.keys(selectedMeals).filter(meal => selectedMeals[meal]).join(', ')`. -/
def selectedMealNames (r : List (String × Bool)) : String :=
  String.intercalate ", " ((objectKeys r).filter (fun k => lookupBool r k))

/-! ## Submit: validation, prompt composition, pipeline -/

/-- The validation message set when the synchronous precondition fails. -/
def validationMessage : String := "Please fill in all the required fields."

/-- The single undifferentiated message set by the `catch` branch. -/
def genericErrorMessage : String :=
  "Sorry, we couldn't generate a meal plan. Please check the file format or try again later."

/-- The default pantry-policy clause (`pantryOption` ≠ `"allowNew"`). -/
def strictPantryClause : String :=
  "Strictly use only the ingredients from the pantry list provided."

/-- The pantry-policy clause chosen when `pantryOption === 'allowNew'`. -/
def allowNewClause : String :=
  "You can suggest ingredients that are not in the pantry list. If you do, please provide a separate 'shoppingList' of items to buy for each recipe that requires them."

/-- `pantryInstruction`: initialised to the strict clause and replaced by
the shopping-list clause when `pantryOption === 'allowNew'`. -/
def pantryInstruction (pantryOption : String) : String :=
  if pantryOption == "allowNew" then allowNewClause else strictPantryClause

/-- The prompt template literal of `handleSubmit`, with its exact
whitespace, interpolating user-type, number of people, diet, the joined
meal names, the file text verbatim, and the pantry-policy clause. -/
def composePrompt (s : AppState) (fileContent : String) : String :=
  "\n        I am a " ++ s.userType ++ ". I am planning meals for " ++
  s.numPeople ++ " person(s).\n        My diet preference is " ++ s.diet ++
  ".\n        Please suggest recipes for the following meals: " ++
  selectedMealNames s.selectedMeals ++
  ".\n        The pantry and equipment list is as follows:\n        " ++
  fileContent ++ "\n        \n        " ++
  pantryInstruction s.pantryOption ++
  "\n        \n        Provide the recipe name, a list of ingredients, simple instructions, and the meal type for each recipe.\n      "

/-- The synchronous precondition check
`!file || !diet || !userType || !atLeastOneMealSelected`. -/
def submitPreconditionFails (s : AppState) : Bool :=
  s.file.isNone || s.diet == "" || s.userType == "" ||
  !atLeastOneMealSelected s.selectedMeals

/-- The `disabled` expression of the submit button:
`!file || !diet || !userType || !atLeastOneMealSelected || loading`. -/
def submitDisabled (s : AppState) : Bool :=
  submitPreconditionFails s || s.loading

/-- Outcome of the `FileReader` read (`fileToText` resolves or rejects). -/
inductive ReadOutcome where
  | ok (content : String)
  | err
deriving DecidableEq

/-- Outcome of the `ai.models.generateContent` round trip: the response
text, or a rejection (network failure, service error, …). -/
inductive NetOutcome where
  | ok (text : String)
  | err
deriving DecidableEq

/-- The environment a submission runs against: what the two external
suspension points (file read, generation call) do. -/
structure Env where
  fileRead : ReadOutcome
  net : NetOutcome

/-- Externally observable effects of one submit invocation. -/
structure SubmitEffects where
  fileReadAttempted : Bool
  serviceCalled : Bool
  promptSent : Option String

/-- The state after the synchronous prefix of `handleSubmit`: either the
validation error is set and nothing else changes, or the in-flight flag is
raised and the previous error and result are cleared. -/
def handleSubmitStart (s : AppState) : AppState :=
  if submitPreconditionFails s then { s with error := some validationMessage }
  else { s with loading := true, error := none, mealPlan := .null }

/-- The `try`/`catch`/`finally` body run from the started state: read the
file, compose the prompt, call the service, `JSON.parse` the response
text, read `.meals`, store it; any rejection or thrown error lands in the
`catch` (generic message), and `finally` clears the in-flight flag. -/
def runPipeline (s : AppState) (env : Env) : AppState × SubmitEffects :=
  match env.fileRead with
  | .err =>
    ({ s with error := some genericErrorMessage, loading := false },
     ⟨true, false, none⟩)
  | .ok content =>
    let prompt := composePrompt s content
    match env.net with
    | .err =>
      ({ s with error := some genericErrorMessage, loading := false },
       ⟨true, true, some prompt⟩)
    | .ok text =>
      match jsonParse text with
      | none =>
        ({ s with error := some genericErrorMessage, loading := false },
         ⟨true, true, some prompt⟩)
      | some v =>
        match memberAccess v "meals" with
        | none =>
          ({ s with error := some genericErrorMessage, loading := false },
           ⟨true, true, some prompt⟩)
        | some meals =>
          ({ s with mealPlan := meals, loading := false },
           ⟨true, true, some prompt⟩)

/-- `handleSubmit`, with its observable effects. -/
def handleSubmitT (s : AppState) (env : Env) : AppState × SubmitEffects :=
  if submitPreconditionFails s then
    ({ s with error := some validationMessage }, ⟨false, false, none⟩)
  else runPipeline { s with loading := true, error := none, mealPlan := .null } env

/-- The state after one complete submit invocation. -/
def handleSubmit (s : AppState) (env : Env) : AppState :=
  (handleSubmitT s env).1

/-! ## Rendering -/

/-- Rendering a `JSVal` as React text content: strings render their
contents, numbers their decimal text, `null` / `undefined` / booleans
render nothing.  (Array and object children do not occur in the fields the
meal card renders.) -/
def renderText : JSVal → String
  | .str s => s
  | .num lexeme => lexeme
  | _ => ""

/-- One rendered meal card. -/
structure MealCard where
  header : String
  title : String
  shoppingSection : Option (List String)
  ingredientItems : List String
  instructionsText : String
deriving DecidableEq

/-- The meal-card JSX evaluated on the runtime value of one meal: property
accesses, the guard `mealData.shoppingList && mealData.shoppingList.length > 0`
for the shopping-list section, and `.map` over the two string arrays.
`none` models a thrown rendering error (access on `null`, `.map` on a
non-array). -/
def renderMealCard (mo : JSVal) : Option MealCard := do
  let mt ← memberAccess mo "mealType"
  let rn ← memberAccess mo "recipeName"
  let sl ← memberAccess mo "shoppingList"
  let ing ← memberAccess mo "ingredients"
  let ins ← memberAccess mo "instructions"
  let ingItems ← match ing with
    | .arr xs => some (xs.map renderText)
    | _ => none
  let shopping ← if isTruthy sl then
      match sl with
      | .arr xs => some (if xs.length > 0 then some (xs.map renderText) else none)
      | _ => none
    else some none
  some { header := renderText mt, title := renderText rn,
         shoppingSection := shopping, ingredientItems := ingItems,
         instructionsText := renderText ins }

/-- Whether the results section `{mealPlan && (…)}` is rendered. -/
def resultsSectionVisible (s : AppState) : Bool := isTruthy s.mealPlan

/-- Whether the error paragraph `{error && (…)}` is rendered (the error
state is a string or `null`; a non-empty string is truthy). -/
def errorVisible (s : AppState) : Bool :=
  match s.error with
  | some e => e ≠ ""
  | none => false

/-- Whether the loader `{loading && (…)}` is rendered. -/
def loaderVisible (s : AppState) : Bool := s.loading

/-! ## The declared response schema and the `Meal` interface -/

/-- The `Meal` TypeScript interface. -/
structure Meal where
  mealType : String
  recipeName : String
  ingredients : List String
  instructions : String
  shoppingList : Option (List String)
deriving DecidableEq

/-- A JSON array whose elements are all strings. -/
def isStringArray : JSVal → Bool
  | .arr xs => xs.all (fun x => match x with | .str _ => true | _ => false)
  | _ => false

/-- One meal object conforming to the declared `responseSchema` item:
required string fields `mealType`, `recipeName`, `instructions`, required
string array `ingredients`, optional string array `shoppingList`. -/
def mealConforms (mo : JSVal) : Bool :=
  match mo with
  | .obj fields =>
    (match fields.lookup "mealType" with | some (.str _) => true | _ => false) &&
    (match fields.lookup "recipeName" with | some (.str _) => true | _ => false) &&
    (match fields.lookup "ingredients" with | some v => isStringArray v | none => false) &&
    (match fields.lookup "instructions" with | some (.str _) => true | _ => false) &&
    (match fields.lookup "shoppingList" with | some v => isStringArray v | none => true)
  | _ => false

/-- A response value conforming to the declared `responseSchema`: a JSON
object whose `meals` property, when present, is an array of conforming
meal objects (the top level of the schema declares no `required` list). -/
def responseConforms (v : JSVal) : Bool :=
  match v with
  | .obj fields =>
    match fields.lookup "meals" with
    | some (.arr ms) => ms.all mealConforms
    | some _ => false
    | none => true
  | _ => false

/-- Decode a list of JSON strings. -/
def decodeStrList : List JSVal → Option (List String)
  | [] => some []
  | .str s :: rest => (decodeStrList rest).map (fun l => s :: l)
  | _ => none

/-- Decode one meal object into the `Meal` interface, keeping every field
value exactly. -/
def decodeMeal (mo : JSVal) : Option Meal :=
  match mo with
  | .obj fields =>
    match fields.lookup "mealType", fields.lookup "recipeName",
          fields.lookup "ingredients", fields.lookup "instructions" with
    | some (.str mt), some (.str rn), some (.arr ing), some (.str ins) =>
      match decodeStrList ing with
      | some ingS =>
        match fields.lookup "shoppingList" with
        | none => some ⟨mt, rn, ingS, ins, none⟩
        | some (.arr sl) =>
          match decodeStrList sl with
          | some slS => some ⟨mt, rn, ingS, ins, some slS⟩
          | none => none
        | some _ => none
      | none => none
    | _, _, _, _ => none
  | _ => none

/-- Rendering a decoded `Meal`: the card shows the meal type, the recipe
name, the shopping-list section exactly when the list is present and
non-empty, the ingredients in order, and the instructions. -/
def renderMeal (m : Meal) : MealCard :=
  { header := m.mealType, title := m.recipeName,
    shoppingSection :=
      match m.shoppingList with
      | some l => if l.length > 0 then some l else none
      | none => none,
    ingredientItems := m.ingredients,
    instructionsText := m.instructions }

/-- Substring containment, by scanning every start offset. -/
def containsSub (s pat : String) : Bool :=
  (List.range (s.data.length + 1)).any (fun i => pat.data.isPrefixOf (s.data.drop i))

/-- A sequence of checkbox toggle events applied to the component state
through `handleMealTimeChange`. -/
def applyMealToggleEvents (events : List (String × Bool)) (s : AppState) : AppState :=
  events.foldl (fun acc e => handleMealTimeChange acc e.1 e.2) s

/-! ## Concrete instances used in witnesses and counterexamples -/

/-- A form state that passes the synchronous precondition. -/
def validState : AppState :=
  { initialState with
      file := some ⟨"pantry.txt"⟩, diet := "Keto", userType := "Student",
      selectedMeals := recordSet initialSelectedMeals "dinner" true }

/-- An environment where the file read (and hence everything after it)
fails. -/
def envErr : Env := ⟨ReadOutcome.err, NetOutcome.err⟩

/-- An environment where the service answers syntactically valid JSON that
lacks the top-level meals array. -/
def schemaMismatchEnv : Env := ⟨ReadOutcome.ok "rice, eggs", NetOutcome.ok "\x7b\x7d"⟩

/-- The response text of claim C6. -/
def stirFryJson : String :=
  "\x7b\"meals\":[\x7b\"mealType\":\"dinner\",\"recipeName\":\"Stir Fry\",\"ingredients\":[\"rice\",\"egg\"],\"instructions\":\"Cook rice, fry egg, mix.\"\x7d]\x7d"

/-- The runtime value of the single meal in `stirFryJson`. -/
def stirFryMealVal : JSVal :=
  JSVal.obj [("mealType", JSVal.str "dinner"), ("recipeName", JSVal.str "Stir Fry"),
    ("ingredients", JSVal.arr [JSVal.str "rice", JSVal.str "egg"]),
    ("instructions", JSVal.str "Cook rice, fry egg, mix.")]

/-- An environment where the pipeline succeeds with `stirFryJson`. -/
def stirFryEnv : Env := ⟨ReadOutcome.ok "rice, eggs", NetOutcome.ok stirFryJson⟩

/-- A schema-conforming response text whose meal carries a non-empty
shopping list. -/
def saladJson : String :=
  "\x7b\"meals\":[\x7b\"mealType\":\"lunch\",\"recipeName\":\"Greek Salad\",\"ingredients\":[\"lettuce\",\"tomato\"],\"instructions\":\"Toss everything.\",\"shoppingList\":[\"feta\"]\x7d]\x7d"

/-- The runtime value of the single meal in `saladJson`. -/
def saladVal : JSVal :=
  JSVal.obj [("mealType", JSVal.str "lunch"), ("recipeName", JSVal.str "Greek Salad"),
    ("ingredients", JSVal.arr [JSVal.str "lettuce", JSVal.str "tomato"]),
    ("instructions", JSVal.str "Toss everything."),
    ("shoppingList", JSVal.arr [JSVal.str "feta"])]

/-- A validation-failing state (diet reset to empty) that still holds a
previously rendered meal plan. -/
def staleResultState : AppState :=
  { validState with diet := "", mealPlan := JSVal.arr [stirFryMealVal] }

/-! ## Helper lemmas -/

/-- Whatever the environment does, the pipeline ends with the in-flight
flag cleared (the `finally` block). -/
theorem runPipeline_loading_false (s : AppState) (env : Env) :
    ((runPipeline s env).1).loading = false := by
  unfold runPipeline
  split
  · rfl
  · split
    · rfl
    · split
      · rfl
      · split <;> rfl

/-! ## Claim theorems -/

/-- C1 (amended): after a passing precondition check, every pipeline step
that rejects or throws — file-read failure, network failure, malformed
JSON, or a parsed response on which reading the `meals` property throws
(JSON `null`) — is caught and yields the fixed generic message, a `null`
result, and a cleared in-flight flag.  (A successfully parsed non-null
response that merely lacks the `meals` array is NOT caught; see the
counterexample.) -/
theorem pipeline_throw_generic_error (s : AppState) (env : Env)
    (hv : submitPreconditionFails s = false)
    (hthrow : env.fileRead = ReadOutcome.err ∨ env.net = NetOutcome.err ∨
      (∃ t, env.net = NetOutcome.ok t ∧ jsonParse t = none) ∨
      (∃ t v, env.net = NetOutcome.ok t ∧ jsonParse t = some v ∧
        memberAccess v "meals" = none)) :
    handleSubmit s env =
      { s with mealPlan := JSVal.null, loading := false,
               error := some genericErrorMessage } := by
  have hneg : ¬ (submitPreconditionFails s = true) := by rw [hv]; simp
  show (handleSubmitT s env).1 = _
  unfold handleSubmitT
  rw [if_neg hneg]
  rcases hthrow with h | h | ⟨t, h, hp⟩ | ⟨t, v, h, hp, hm⟩
  · simp only [runPipeline, h]
  · cases hf : env.fileRead with
    | err => simp only [runPipeline, hf]
    | ok content => simp only [runPipeline, hf, h]
  · cases hf : env.fileRead with
    | err => simp only [runPipeline, hf]
    | ok content => simp only [runPipeline, hf, h, hp]
  · cases hf : env.fileRead with
    | err => simp only [runPipeline, hf]
    | ok content => simp only [runPipeline, hf, h, hp, hm]

/-- Witness for C1 (amended) at a failing file read. -/
theorem pipeline_throw_generic_error_witness :
    submitPreconditionFails validState = false ∧
    handleSubmit validState envErr =
      { validState with mealPlan := JSVal.null, loading := false,
                         error := some genericErrorMessage } :=
  ⟨rfl, pipeline_throw_generic_error validState envErr rfl (Or.inl rfl)⟩

set_option maxRecDepth 40000 in
/-- C1 counterexample: the service answers the syntactically valid JSON
text of two braces, which lacks the `meals` array — a schema mismatch.
`JSON.parse` succeeds, `parsedPlan.meals` is `undefined`, `setMealPlan`
stores it, and the `catch` never runs: the error state stays `null`
instead of becoming the generic message. -/
theorem schema_mismatch_no_error :
    submitPreconditionFails validState = false ∧
    (handleSubmit validState schemaMismatchEnv).error = none ∧
    (handleSubmit validState schemaMismatchEnv).mealPlan = JSVal.undefined ∧
    (handleSubmit validState schemaMismatchEnv).loading = false :=
  ⟨rfl, rfl, rfl, rfl⟩

set_option maxRecDepth 40000 in
/-- C6: a submission that passed preconditions and receives the Stir Fry
response text stores exactly the parsed one-element meal array, clears the
in-flight flag, and leaves the error `null`; the stored meal decodes to
the `Meal` record matching the object field by field. -/
theorem success_sets_meal_plan (s : AppState) (env : Env) (c : String)
    (hv : submitPreconditionFails s = false)
    (hf : env.fileRead = ReadOutcome.ok c)
    (hn : env.net = NetOutcome.ok stirFryJson) :
    (handleSubmit s env).mealPlan = JSVal.arr [stirFryMealVal] ∧
    (handleSubmit s env).loading = false ∧
    (handleSubmit s env).error = none ∧
    decodeMeal stirFryMealVal =
      some ⟨"dinner", "Stir Fry", ["rice", "egg"], "Cook rice, fry egg, mix.", none⟩ := by
  have hneg : ¬ (submitPreconditionFails s = true) := by rw [hv]; simp
  have hparse : jsonParse stirFryJson =
      some (JSVal.obj [("meals", JSVal.arr [stirFryMealVal])]) := by rfl
  have hsub : handleSubmit s env =
      { s with mealPlan := JSVal.arr [stirFryMealVal], loading := false,
               error := none } := by
    show (handleSubmitT s env).1 = _
    unfold handleSubmitT
    rw [if_neg hneg]
    simp only [runPipeline, hf, hn, hparse]
    rfl
  rw [hsub]
  exact ⟨rfl, rfl, rfl, rfl⟩

set_option maxRecDepth 40000 in
/-- Witness for C6 at a concrete passing state and environment. -/
theorem success_sets_meal_plan_witness :
    (handleSubmit validState stirFryEnv).mealPlan = JSVal.arr [stirFryMealVal] ∧
    (handleSubmit validState stirFryEnv).loading = false ∧
    (handleSubmit validState stirFryEnv).error = none ∧
    decodeMeal stirFryMealVal =
      some ⟨"dinner", "Stir Fry", ["rice", "egg"], "Cook rice, fry egg, mix.", none⟩ :=
  success_sets_meal_plan validState stirFryEnv "rice, eggs" rfl rfl rfl

/-- C2: the submit control is enabled if and only if a file is selected,
the diet is non-empty, the user type is non-empty, at least one meal time
is checked, and no request is in flight. -/
theorem submit_enabled_iff (s : AppState) :
    submitDisabled s = false ↔
      (s.file ≠ none ∧ s.diet ≠ "" ∧ s.userType ≠ "" ∧
        atLeastOneMealSelected s.selectedMeals = true ∧ s.loading = false) := by
  unfold submitDisabled submitPreconditionFails
  simp [Option.isNone_eq_false_iff, Option.isSome_iff_ne_none, and_assoc]

/-- C3: when the synchronous precondition fails, submit only sets the
validation message: the file is not read, the external service is not
called, no prompt is sent, and the in-flight flag is untouched (in
particular it stays false). -/
theorem validation_failure_no_effects (s : AppState) (env : Env)
    (h : submitPreconditionFails s = true) :
    handleSubmitT s env =
      ({ s with error := some validationMessage }, ⟨false, false, none⟩) ∧
    (handleSubmit s env).loading = s.loading ∧
    (s.loading = false → (handleSubmit s env).loading = false) := by
  have heq : handleSubmitT s env =
      ({ s with error := some validationMessage }, ⟨false, false, none⟩) := by
    unfold handleSubmitT; rw [if_pos h]
  refine ⟨heq, ?_, ?_⟩
  · show ((handleSubmitT s env).1).loading = s.loading
    rw [heq]
  · intro hl
    show ((handleSubmitT s env).1).loading = false
    rw [heq]; exact hl

/-- Witness for C3 at the initial (empty) form state. -/
theorem validation_failure_no_effects_witness :
    handleSubmitT initialState stirFryEnv =
      ({ initialState with error := some validationMessage },
        ⟨false, false, none⟩) ∧
    (handleSubmit initialState stirFryEnv).loading = initialState.loading ∧
    (initialState.loading = false →
      (handleSubmit initialState stirFryEnv).loading = false) :=
  validation_failure_no_effects initialState stirFryEnv rfl

/-- C7: the in-flight flag is raised exactly when the synchronous
precondition passes (a validation failure leaves the whole state except
the error untouched, so the flag stays false), and it is cleared by the
`finally` block on every completion, whatever the pipeline outcome. -/
theorem loading_lifecycle (s : AppState) (env : Env) :
    (submitPreconditionFails s = true →
      handleSubmitStart s = { s with error := some validationMessage }) ∧
    (submitPreconditionFails s = false →
      (handleSubmitStart s).loading = true ∧
      (handleSubmit s env).loading = false) := by
  constructor
  · intro h; unfold handleSubmitStart; rw [if_pos h]
  · intro h
    have hneg : ¬ (submitPreconditionFails s = true) := by rw [h]; simp
    constructor
    · unfold handleSubmitStart; rw [if_neg hneg]
    · show ((handleSubmitT s env).1).loading = false
      unfold handleSubmitT
      rw [if_neg hneg]
      exact runPipeline_loading_false _ env

/-- Witness for C7: a failing validation keeps the flag down, a passing
one raises it, and both a failing and a succeeding pipeline clear it. -/
theorem loading_lifecycle_witness :
    handleSubmitStart initialState =
      { initialState with error := some validationMessage } ∧
    (handleSubmitStart validState).loading = true ∧
    (handleSubmit validState envErr).loading = false ∧
    (handleSubmit validState stirFryEnv).loading = false :=
  ⟨(loading_lifecycle initialState envErr).1 rfl,
   ((loading_lifecycle validState envErr).2 rfl).1,
   ((loading_lifecycle validState envErr).2 rfl).2,
   ((loading_lifecycle validState stirFryEnv).2 rfl).2⟩

/-- Updating an existing key leaves `Object.keys` unchanged. -/
theorem objectKeys_recordSet_mem (r : List (String × Bool)) (k : String) (v : Bool)
    (h : k ∈ objectKeys r) : objectKeys (recordSet r k v) = objectKeys r := by
  have hany : r.any (fun p => p.1 == k) = true := by
    rw [List.any_eq_true]
    obtain ⟨p, hp, hpk⟩ := List.mem_map.mp h
    exact ⟨p, hp, by simp [hpk]⟩
  unfold recordSet
  rw [if_pos hany]
  unfold objectKeys
  rw [List.map_map]
  apply List.map_congr_left
  intro p hp
  by_cases hpk : p.1 = k
  · simp [Function.comp, hpk]
  · simp [Function.comp, hpk]

/-- Toggling keys that already exist never changes `Object.keys`. -/
theorem objectKeys_applyMealToggles (events : List (String × Bool)) :
    ∀ r : List (String × Bool), (∀ e ∈ events, e.1 ∈ objectKeys r) →
      objectKeys (applyMealToggles events r) = objectKeys r := by
  induction events with
  | nil => intro r _; rfl
  | cons e es ih =>
    intro r h
    have hk : objectKeys (recordSet r e.1 e.2) = objectKeys r :=
      objectKeys_recordSet_mem r e.1 e.2 (h e (List.mem_cons_self e es))
    have hrest : objectKeys (applyMealToggles es (recordSet r e.1 e.2)) =
        objectKeys (recordSet r e.1 e.2) := by
      apply ih
      intro e' he'
      rw [hk]
      exact h e' (List.mem_cons_of_mem e he')
    calc objectKeys (applyMealToggles (e :: es) r)
        = objectKeys (applyMealToggles es (recordSet r e.1 e.2)) := rfl
      _ = objectKeys (recordSet r e.1 e.2) := hrest
      _ = objectKeys r := hk

/-- The toggle events only touch the `selectedMeals` record. -/
theorem applyMealToggleEvents_selectedMeals (events : List (String × Bool)) :
    ∀ s : AppState, (applyMealToggleEvents events s).selectedMeals =
      applyMealToggles events s.selectedMeals := by
  induction events with
  | nil => intro s; rfl
  | cons e es ih =>
    intro s
    calc (applyMealToggleEvents (e :: es) s).selectedMeals
        = (applyMealToggleEvents es (handleMealTimeChange s e.1 e.2)).selectedMeals := rfl
      _ = applyMealToggles es (handleMealTimeChange s e.1 e.2).selectedMeals := ih _
      _ = applyMealToggles (e :: es) s.selectedMeals := rfl

/-- C4: whatever sequence of checkbox toggles the user performs (each
event names one of the five meal-time checkboxes), the comma-joined list
embedded in the prompt enumerates the checked names in the fixed
`Object.keys` order breakfast, brunch, lunch, snack, dinner — never in
selection order. -/
theorem meal_names_fixed_order (s : AppState) (events : List (String × Bool))
    (hkeys : objectKeys s.selectedMeals = mealTimeOptions)
    (hnames : ∀ e ∈ events, e.1 ∈ mealTimeOptions) :
    selectedMealNames (applyMealToggleEvents events s).selectedMeals =
      String.intercalate ", " (mealTimeOptions.filter
        (fun m => lookupBool (applyMealToggleEvents events s).selectedMeals m)) := by
  have hsel := applyMealToggleEvents_selectedMeals events s
  have hk : objectKeys (applyMealToggles events s.selectedMeals) = mealTimeOptions := by
    have hmem : ∀ e ∈ events, e.1 ∈ objectKeys s.selectedMeals := by
      intro e he; rw [hkeys]; exact hnames e he
    rw [objectKeys_applyMealToggles events s.selectedMeals hmem, hkeys]
  rw [hsel]
  unfold selectedMealNames
  rw [hk]

/-- Witness for C4: checking snack first and breakfast second still yields
the fixed order "breakfast, snack". -/
theorem meal_names_fixed_order_witness :
    selectedMealNames
        (applyMealToggleEvents [("snack", true), ("breakfast", true)] initialState).selectedMeals =
      String.intercalate ", " (mealTimeOptions.filter
        (fun m => lookupBool
          (applyMealToggleEvents [("snack", true), ("breakfast", true)] initialState).selectedMeals m)) ∧
    selectedMealNames
        (applyMealToggleEvents [("snack", true), ("breakfast", true)] initialState).selectedMeals =
      "breakfast, snack" :=
  ⟨meal_names_fixed_order initialState [("snack", true), ("breakfast", true)]
      rfl (by decide), by rfl⟩

/-- Every decomposition exhibits a substring. -/
theorem containsSub_of_parts (pre pat post : String) :
    containsSub (pre ++ pat ++ post) pat = true := by
  unfold containsSub
  rw [List.any_eq_true]
  refine ⟨pre.data.length, ?_, ?_⟩
  · rw [List.mem_range]
    simp only [String.data_append, List.length_append]
    omega
  · have hdata : (pre ++ pat ++ post).data = pre.data ++ (pat.data ++ post.data) := by
      simp [String.data_append]
    rw [hdata, List.drop_left, List.isPrefixOf_iff_prefix]
    exact List.prefix_append _ _

/-- C5 (amended): the composer inserts exactly one pantry-policy clause,
chosen by `pantryOption` — the shopping-list clause exactly when it is
`"allowNew"`, the strict clause otherwise — and that clause appears in the
prompt.  (Both clauses can nevertheless appear as substrings of one
prompt, because the pantry file text is embedded verbatim; see the
counterexample.) -/
theorem pantry_clause_chosen (s : AppState) (content : String) :
    (pantryInstruction s.pantryOption = allowNewClause ↔ s.pantryOption = "allowNew") ∧
    (pantryInstruction s.pantryOption = strictPantryClause ↔ ¬ s.pantryOption = "allowNew") ∧
    containsSub (composePrompt s content) (pantryInstruction s.pantryOption) = true := by
  have hne : allowNewClause ≠ strictPantryClause := by decide
  refine ⟨?_, ?_, ?_⟩
  · unfold pantryInstruction
    by_cases h : s.pantryOption = "allowNew"
    · simp [h]
    · simp [h, Ne.symm hne]
  · unfold pantryInstruction
    by_cases h : s.pantryOption = "allowNew"
    · simp [h, hne]
    · simp [h]
  · unfold composePrompt
    exact containsSub_of_parts _ _ _

set_option maxRecDepth 100000 in
/-- C5 counterexample: with "Use Pantry Items Only" selected and an
uploaded pantry file whose text happens to be the shopping-list clause
itself, the composed prompt contains both pantry-policy clauses, because
the file text is embedded verbatim. -/
theorem both_clauses_in_prompt :
    validState.pantryOption = "pantryOnly" ∧
    containsSub (composePrompt validState allowNewClause) strictPantryClause = true ∧
    containsSub (composePrompt validState allowNewClause) allowNewClause = true := by
  refine ⟨rfl, ?_, ?_⟩ <;> decide

/-- C10: the number-of-people value takes no part in the synchronous
precondition: whatever its rendering (including "0", "-2" and "NaN"), a
state that satisfies the file, diet, user-type and meal-time conditions
passes validation, the submission proceeds (the composed prompt is handed
to the generation call whenever the file read resolves), and the value is
embedded verbatim in the prompt. -/
theorem numPeople_not_validated (s : AppState) (n c : String) (env : Env)
    (hfile : s.file ≠ none) (hdiet : s.diet ≠ "") (huser : s.userType ≠ "")
    (hmeal : atLeastOneMealSelected s.selectedMeals = true) :
    submitPreconditionFails { s with numPeople := n } = false ∧
    (handleSubmitStart { s with numPeople := n }).loading = true ∧
    (env.fileRead = ReadOutcome.ok c →
      (handleSubmitT { s with numPeople := n } env).2.promptSent =
        some (composePrompt { s with numPeople := n } c)) ∧
    (∃ pre post, composePrompt { s with numPeople := n } c = pre ++ n ++ post) := by
  have hpre : submitPreconditionFails { s with numPeople := n } = false := by
    unfold submitPreconditionFails
    simp [hfile, hdiet, huser, hmeal, Option.isNone_eq_false_iff,
      Option.isSome_iff_ne_none]
  have hneg : ¬ (submitPreconditionFails { s with numPeople := n } = true) := by
    rw [hpre]; simp
  refine ⟨hpre, ?_, ?_, ?_⟩
  · unfold handleSubmitStart; rw [if_neg hneg]
  · intro hf
    unfold handleSubmitT
    rw [if_neg hneg]
    simp only [runPipeline, hf]
    split
    · rfl
    · split
      · rfl
      · split <;> rfl
  · refine ⟨"\n        I am a " ++ s.userType ++ ". I am planning meals for ",
      " person(s).\n        My diet preference is " ++ s.diet ++
      ".\n        Please suggest recipes for the following meals: " ++
      selectedMealNames s.selectedMeals ++
      ".\n        The pantry and equipment list is as follows:\n        " ++
      c ++ "\n        \n        " ++ pantryInstruction s.pantryOption ++
      "\n        \n        Provide the recipe name, a list of ingredients, simple instructions, and the meal type for each recipe.\n      ", ?_⟩
    apply String.ext
    simp only [composePrompt, String.data_append, List.append_assoc]

/-- Witness for C10 with the field cleared (JavaScript renders the state
as NaN). -/
theorem numPeople_not_validated_witness :
    submitPreconditionFails { validState with numPeople := "NaN" } = false ∧
    (∃ pre post, composePrompt { validState with numPeople := "NaN" } "rice, eggs" =
      pre ++ "NaN" ++ post) :=
  ⟨(numPeople_not_validated validState "NaN" "rice, eggs" envErr
      (by decide) (by decide) (by decide) rfl).1,
   (numPeople_not_validated validState "NaN" "rice, eggs" envErr
      (by decide) (by decide) (by decide) rfl).2.2.2⟩

/-- C9: a submit that fails the synchronous precondition mutates only the
error state; every form field, the stored meal plan and the in-flight flag
are untouched, the results section stays exactly as visible as before, and
the validation error is displayed. -/
theorem validation_failure_frame (s : AppState) (env : Env)
    (h : submitPreconditionFails s = true) :
    handleSubmit s env = { s with error := some validationMessage } ∧
    (handleSubmit s env).mealPlan = s.mealPlan ∧
    (handleSubmit s env).loading = s.loading ∧
    (handleSubmit s env).file = s.file ∧
    (handleSubmit s env).diet = s.diet ∧
    (handleSubmit s env).userType = s.userType ∧
    (handleSubmit s env).numPeople = s.numPeople ∧
    (handleSubmit s env).selectedMeals = s.selectedMeals ∧
    (handleSubmit s env).pantryOption = s.pantryOption ∧
    resultsSectionVisible (handleSubmit s env) = resultsSectionVisible s ∧
    errorVisible (handleSubmit s env) = true := by
  have heq : handleSubmit s env = { s with error := some validationMessage } := by
    show (handleSubmitT s env).1 = _
    unfold handleSubmitT; rw [if_pos h]
  rw [heq]
  refine ⟨rfl, rfl, rfl, rfl, rfl, rfl, rfl, rfl, rfl, rfl, rfl⟩

/-- Witness for C9: the stale meal plan of an earlier successful
submission stays stored and rendered next to the validation error. -/
theorem validation_failure_frame_witness :
    handleSubmit staleResultState envErr =
      { staleResultState with error := some validationMessage } ∧
    resultsSectionVisible (handleSubmit staleResultState envErr) = true ∧
    errorVisible (handleSubmit staleResultState envErr) = true :=
  ⟨(validation_failure_frame staleResultState envErr rfl).1,
   by rw [(validation_failure_frame staleResultState envErr rfl).1]; rfl,
   (validation_failure_frame staleResultState envErr rfl).2.2.2.2.2.2.2.2.2.2⟩

/-- A conforming required string field. -/
theorem lookup_is_str : ∀ (o : Option JSVal),
    (match o with | some (JSVal.str _) => true | _ => false) = true →
    ∃ s, o = some (JSVal.str s)
  | some (JSVal.str s), _ => ⟨s, rfl⟩
  | none, h => Bool.noConfusion h
  | some JSVal.null, h => Bool.noConfusion h
  | some JSVal.undefined, h => Bool.noConfusion h
  | some (JSVal.bool _), h => Bool.noConfusion h
  | some (JSVal.num _), h => Bool.noConfusion h
  | some (JSVal.arr _), h => Bool.noConfusion h
  | some (JSVal.obj _), h => Bool.noConfusion h

/-- A conforming required string-array field. -/
theorem lookup_is_str_arr : ∀ (o : Option JSVal),
    (match o with | some v => isStringArray v | none => false) = true →
    ∃ xs, o = some (JSVal.arr xs) ∧
      (xs.all fun x => match x with | JSVal.str _ => true | _ => false) = true
  | some (JSVal.arr xs), h => ⟨xs, rfl, h⟩
  | none, h => Bool.noConfusion h
  | some JSVal.null, h => Bool.noConfusion h
  | some JSVal.undefined, h => Bool.noConfusion h
  | some (JSVal.bool _), h => Bool.noConfusion h
  | some (JSVal.num _), h => Bool.noConfusion h
  | some (JSVal.str _), h => Bool.noConfusion h
  | some (JSVal.obj _), h => Bool.noConfusion h

/-- A conforming optional string-array field. -/
theorem lookup_opt_str_arr : ∀ (o : Option JSVal),
    (match o with | some v => isStringArray v | none => true) = true →
    o = none ∨ ∃ xs, o = some (JSVal.arr xs) ∧
      (xs.all fun x => match x with | JSVal.str _ => true | _ => false) = true
  | none, _ => Or.inl rfl
  | some (JSVal.arr xs), h => Or.inr ⟨xs, rfl, h⟩
  | some JSVal.null, h => Bool.noConfusion h
  | some JSVal.undefined, h => Bool.noConfusion h
  | some (JSVal.bool _), h => Bool.noConfusion h
  | some (JSVal.num _), h => Bool.noConfusion h
  | some (JSVal.str _), h => Bool.noConfusion h
  | some (JSVal.obj _), h => Bool.noConfusion h

/-- Decoding an all-string JSON array yields exactly the rendered texts. -/
theorem decodeStrList_eq_map (xs : List JSVal)
    (h : (xs.all fun x => match x with | JSVal.str _ => true | _ => false) = true) :
    decodeStrList xs = some (xs.map renderText) := by
  induction xs with
  | nil => rfl
  | cons x rest ih =>
    rw [List.all_cons, Bool.and_eq_true] at h
    obtain ⟨hx, hrest⟩ := h
    cases x <;> try exact Bool.noConfusion hx
    case str s =>
      rw [List.map_cons]
      show (decodeStrList rest).map (fun l => s :: l) =
        some (renderText (JSVal.str s) :: rest.map renderText)
      rw [ih hrest]
      rfl

/-- The shopping-list section of a rendered decoded meal is absent exactly
when the decoded shopping list is absent or empty. -/
theorem renderMeal_shopping_iff (m : Meal) :
    (renderMeal m).shoppingSection = none ↔
      (m.shoppingList = none ∨ m.shoppingList = some []) := by
  rcases m with ⟨mt, rn, ing, ins, sl⟩
  rcases sl with _ | l
  · simp [renderMeal]
  · rcases l with _ | ⟨x, xs⟩ <;> simp [renderMeal]

/-- A schema-conforming meal object decodes to a `Meal` whose direct JSX
rendering agrees with the rendering of the decoded record. -/
theorem mealConforms_decode_render (mo : JSVal) (h : mealConforms mo = true) :
    ∃ m, decodeMeal mo = some m ∧ renderMealCard mo = some (renderMeal m) := by
  cases mo <;> try exact Bool.noConfusion h
  case obj fields =>
    unfold mealConforms at h
    rw [Bool.and_eq_true, Bool.and_eq_true, Bool.and_eq_true, Bool.and_eq_true] at h
    obtain ⟨⟨⟨⟨h1, h2⟩, h3⟩, h4⟩, h5⟩ := h
    obtain ⟨mt, hmt⟩ := lookup_is_str _ h1
    obtain ⟨rn, hrn⟩ := lookup_is_str _ h2
    obtain ⟨ing, hing, hingAll⟩ := lookup_is_str_arr _ h3
    obtain ⟨ins, hins⟩ := lookup_is_str _ h4
    rcases lookup_opt_str_arr _ h5 with hsl | ⟨sl, hsl, hslAll⟩
    · refine ⟨⟨mt, rn, ing.map renderText, ins, none⟩, ?_, ?_⟩
      · simp [decodeMeal, hmt, hrn, hing, hins, hsl,
          decodeStrList_eq_map ing hingAll]
      · simp [renderMealCard, memberAccess, hmt, hrn, hing, hins, hsl,
          isTruthy, renderMeal, renderText]
    · refine ⟨⟨mt, rn, ing.map renderText, ins, some (sl.map renderText)⟩, ?_, ?_⟩
      · simp [decodeMeal, hmt, hrn, hing, hins, hsl,
          decodeStrList_eq_map ing hingAll, decodeStrList_eq_map sl hslAll]
      · simp [renderMealCard, memberAccess, hmt, hrn, hing, hins, hsl,
          isTruthy, renderMeal, renderText, List.length_map]

/-- A conforming response with a present `meals` array has only conforming
meal objects in it. -/
theorem responseConforms_meals (v : JSVal) (ms : List JSVal)
    (hconf : responseConforms v = true)
    (hmeals : memberAccess v "meals" = some (JSVal.arr ms)) :
    ms.all mealConforms = true := by
  cases v <;> try exact Bool.noConfusion hconf
  case obj fields =>
    have hconf2 : (match fields.lookup "meals" with
        | some (JSVal.arr l) => l.all mealConforms
        | some _ => false
        | none => true) = true := hconf
    have hmeals2 : some ((fields.lookup "meals").getD JSVal.undefined) =
        some (JSVal.arr ms) := hmeals
    rcases hl : fields.lookup "meals" with _ | w
    · rw [hl] at hmeals2
      simp at hmeals2
    · rw [hl] at hconf2 hmeals2
      simp only [Option.getD_some, Option.some.injEq] at hmeals2
      subst hmeals2
      exact hconf2

/-- C8: for every syntactically valid, schema-conforming response text,
parsing it and rendering any meal of its meal list reproduces every
declared field — meal type, recipe name, the ingredients in order, the
instructions — and the shopping-list section is rendered exactly when the
`shoppingList` field is present with a non-empty array. -/
theorem parse_render_roundtrip (txt : String) (v : JSVal) (ms : List JSVal)
    (mo : JSVal)
    (hparse : jsonParse txt = some v)
    (hconf : responseConforms v = true)
    (hmeals : memberAccess v "meals" = some (JSVal.arr ms))
    (hmo : mo ∈ ms) :
    ∃ m, decodeMeal mo = some m ∧ renderMealCard mo = some (renderMeal m) ∧
      ((renderMeal m).shoppingSection = none ↔
        (m.shoppingList = none ∨ m.shoppingList = some [])) := by
  have hall := responseConforms_meals v ms hconf hmeals
  rw [List.all_eq_true] at hall
  obtain ⟨m, hdec, hren⟩ := mealConforms_decode_render mo (hall mo hmo)
  exact ⟨m, hdec, hren, renderMeal_shopping_iff m⟩

set_option maxRecDepth 40000 in
/-- Witness for C8 at a concrete response carrying a shopping list. -/
theorem parse_render_roundtrip_witness :
    ∃ m, decodeMeal saladVal = some m ∧
      renderMealCard saladVal = some (renderMeal m) ∧
      ((renderMeal m).shoppingSection = none ↔
        (m.shoppingList = none ∨ m.shoppingList = some [])) :=
  parse_render_roundtrip saladJson (JSVal.obj [("meals", JSVal.arr [saladVal])])
    [saladVal] saladVal rfl rfl rfl (List.Mem.head _)

end MealPlanner

